import Mathlib

/-!
# Verification of the Gmod server scanner core

Shallow embedding of the scanner (`src/scanner/service.js`), the persistence
helpers (`src/database/index.js`), the Steam client rate limiter
(`src/steam/client.js`), the enrichment queue (`src/steam/service.js`), the ML
ensemble (`MLService`), and the dashboard name normalization, together with
theorems settling the spec's claims about them.

Conventions of the embedding:
- JS byte buffers are `List Nat` (each entry a byte value); out-of-range
  indexing, which yields `undefined` in JS, is modelled with `Option Nat`
  (`List.get?`) where a source read can run past the end.
- JS numbers are modelled as exact rationals (`ℚ`); timestamps (`Date.now()`
  milliseconds) as `Nat`.
- Fallible operations return `Except`; stateful code is explicit state passing.
-/

/-! ## Wire codec (`ServerScannerService` in `src/scanner/service.js`) -/

/-- The record returned by `readString(buffer, offset)`: the decoded string
(kept as the byte slice) together with its `length` field.  Mirrors the JS
object `{ value, length }`. -/
structure JsStr where
  value : List Nat
  length : Nat
deriving Repr, DecidableEq

/-- Scan length of the `readString` loop: number of bytes before the first
zero byte or the end of the remaining buffer
(`while (offset + length < buffer.length && buffer[offset + length] !== 0)`). -/
def scanLen : List Nat → Nat
  | [] => 0
  | c :: rest => if c = 0 then 0 else scanLen rest + 1

/-- `readString(buffer, offset)` from `src/scanner/service.js`: scans from
`offset` until a zero byte or buffer end; `value` is
`buffer.slice(offset, offset + length)` and `length` excludes the
terminator. -/
def readString (buffer : List Nat) (offset : Nat) : JsStr :=
  let rest := buffer.drop offset
  let len := scanLen rest
  { value := rest.take len, length := len }

/-- Result object of `parseA2SInfo`.  Note that the source assigns
`name: this.readString(buffer, offset)` — the whole `{value, length}` record —
while `map`, `folder`, `game` and `version` are assigned `result.value`.
Single-byte reads past the buffer end yield `undefined` in JS, modelled as
`Option Nat`; `String.fromCharCode(undefined)` yields the NUL character,
modelled by `jsFromCharCode`. -/
structure A2SInfo where
  protocol : Option Nat
  name : JsStr
  map : List Nat
  folder : List Nat
  game : List Nat
  players : Option Nat
  max_players : Option Nat
  bots : Option Nat
  server_type : Nat
  environment : Nat
  visibility : Option Nat
  vac : Option Nat
  version : List Nat
  port : Nat
  tags : List Nat
deriving Repr, DecidableEq

/-- JS `String.fromCharCode(x)` for `x` a byte read that may be `undefined`:
`undefined` coerces through `ToUint16(NaN) = 0`; a number is taken mod 2^16. -/
def jsFromCharCode (x : Option Nat) : Nat :=
  match x with
  | none => 0
  | some c => c % 65536

/-- `parseA2SInfo(buffer)` from `src/scanner/service.js`.  The JS body runs in
a `try`/`catch` that rethrows as `Failed to parse A2S_INFO`; none of the
operations in the body can throw (indexing past the end yields `undefined`,
`readString` is bounds-checked), so the function always returns a result.
The error channel of the `Except` mirrors the `catch`. -/
def parseA2SInfo (buffer : List Nat) : Except String A2SInfo :=
  -- let offset = 4 (skip header)
  let protocol := buffer.get? 4
  -- name: the whole readString record is stored (not `.value`)
  let nameRes := readString buffer 5
  let o1 := 5 + nameRes.length + 1
  let mapRes := readString buffer o1
  let o2 := o1 + mapRes.length + 1
  let folderRes := readString buffer o2
  let o3 := o2 + folderRes.length + 1
  let gameRes := readString buffer o3
  let o4 := o3 + gameRes.length + 1
  let versionRes := readString buffer (o4 + 7)
  Except.ok
    { protocol := protocol
      name := nameRes
      map := mapRes.value
      folder := folderRes.value
      game := gameRes.value
      players := buffer.get? o4
      max_players := buffer.get? (o4 + 1)
      bots := buffer.get? (o4 + 2)
      server_type := jsFromCharCode (buffer.get? (o4 + 3))
      environment := jsFromCharCode (buffer.get? (o4 + 4))
      visibility := buffer.get? (o4 + 5)
      vac := buffer.get? (o4 + 6)
      version := versionRes.value
      port := 0
      tags := [] }

/-- Fixture for a well-formed A2S_INFO response. Modelled from the spec:
4-byte magic header, protocol byte, four null-terminated strings (name, map,
folder, game), seven single-byte fields, then a null-terminated version
string (§4.1); the string arguments are zero-free byte lists. Used as the
"well-formed info response" the truncation claim quantifies over. -/
def encodeA2SInfo (name map folder game : List Nat)
    (protocol players maxPlayers bots serverType environment visibility vac : Nat)
    (version : List Nat) : List Nat :=
  [255, 255, 255, 255, protocol] ++ name ++ [0] ++ map ++ [0] ++ folder ++ [0] ++
    game ++ [0] ++ [players, maxPlayers, bots, serverType, environment, visibility, vac] ++
    version ++ [0]

/-- Byte list of an ASCII string literal, for fixtures and patterns. -/
def litBytes (s : String) : List Nat := s.data.map Char.toNat

/-- Concrete well-formed info response used by the truncation claims:
name "ab", map "cd", folder "e", game "f", players 3/10/1, type 'd',
environment 'l', visibility 0, VAC 1, version "1". -/
def demoInfoBuf : List Nat :=
  encodeA2SInfo (litBytes "ab") (litBytes "cd") (litBytes "e") (litBytes "f")
    17 3 10 1 100 108 0 1 (litBytes "1")

/-! ## Master-server directory response (`discoverFromSteamMaster`) -/

/-- One candidate string, as pushed by the `discoverFromSteamMaster` message
handler: dotted IPv4 from four bytes and a big-endian 16-bit port
(`(msg[offset+4] << 8) | msg[offset+5]`). -/
def masterCandidate (msg : List Nat) (offset : Nat) : String :=
  let a := msg.getD offset 0
  let b := msg.getD (offset + 1) 0
  let c := msg.getD (offset + 2) 0
  let d := msg.getD (offset + 3) 0
  let ip := s!"{a}.{b}.{c}.{d}"
  let port := (msg.getD (offset + 4) 0) <<< 8 ||| msg.getD (offset + 5) 0
  s!"{ip}:{port}"

/-- The parse loop of `discoverFromSteamMaster`:
`let offset = 6; while (offset < msg.length - 6) { push(record); offset += 6 }`.
The loop advances `offset` by 6 each iteration, so it runs fewer than
`msg.length` times; `fuel` is instantiated with `msg.length` in
`parseMasterResponse` and therefore never runs out (each recursive call
strictly shrinks `msg.length - offset`, which starts below the fuel). -/
def parseMasterLoop : Nat → List Nat → Nat → List String
  | 0, _, _ => []
  | fuel + 1, msg, offset =>
    if offset < msg.length - 6 then
      masterCandidate msg offset :: parseMasterLoop fuel msg (offset + 6)
    else
      []

/-- Whole-datagram decode of a directory response: records start at offset 6
(after the skipped header). -/
def parseMasterResponse (msg : List Nat) : List String :=
  parseMasterLoop msg.length msg 6

/-- The fuel bound in `parseMasterLoop` is irrelevant as long as it dominates
`msg.length - offset`; in particular `msg.length` is always enough. -/
theorem parseMasterLoop_fuel_irrelevant (msg : List Nat) :
    ∀ fuel fuel' offset, msg.length - offset ≤ fuel → msg.length - offset ≤ fuel' →
      parseMasterLoop fuel msg offset = parseMasterLoop fuel' msg offset := by
  intro fuel
  induction fuel with
  | zero =>
    intro fuel' offset h _
    match fuel' with
    | 0 => rfl
    | f + 1 =>
      simp only [parseMasterLoop]
      rw [if_neg]
      omega
  | succ f ih =>
    intro fuel' offset h h'
    match fuel' with
    | 0 =>
      simp only [parseMasterLoop]
      rw [if_neg]
      omega
    | g + 1 =>
      simp only [parseMasterLoop]
      by_cases hc : offset < msg.length - 6
      · rw [if_pos hc, if_pos hc, ih g (offset + 6) (by omega) (by omega)]
      · rw [if_neg hc, if_neg hc]

/-- A 6-byte address record of the directory protocol, used to state the
general shape of the parse. -/
structure MasterRec where
  a : Nat
  b : Nat
  c : Nat
  d : Nat
  p1 : Nat
  p2 : Nat
deriving Repr, DecidableEq

/-- The six bytes of a directory record on the wire. -/
def MasterRec.bytes (r : MasterRec) : List Nat := [r.a, r.b, r.c, r.d, r.p1, r.p2]

/-- The candidate string a directory record decodes to. -/
def MasterRec.candidate (r : MasterRec) : String :=
  let ip := s!"{r.a}.{r.b}.{r.c}.{r.d}"
  let port := r.p1 <<< 8 ||| r.p2
  s!"{ip}:{port}"

example : parseMasterResponse [1, 2, 3, 4, 5, 6, 192, 168, 1, 1, 105, 167] = [] := by decide

example :
    parseMasterResponse ([1, 2, 3, 4, 5, 6, 192, 168, 1, 1, 105, 167] ++ [0, 0, 0, 0, 0, 0]) =
      ["192.168.1.1:27047"] := by decide

/-! ## Per-address probe (`queryServer` in `src/scanner/service.js`) -/

/-- A rejected UDP query: the `setTimeout` rejection (`Query timeout` /
`Player query timeout`), a socket `error` event, or a parse rethrow. -/
inductive QueryError where
  | timeout
  | networkError
  | parseError (msg : String)
deriving Repr, DecidableEq

/-- One entry of the `parseA2SPlayer` result array.  The 4-byte float
`duration` is modelled as an exact rational. -/
structure PlayerEntry where
  index : Nat
  name : List Nat
  score : Int
  duration : ℚ
deriving Repr, DecidableEq

/-- The two sides of the probe's outcome in `queryServer`: `.online` is the
`saveServerData` path (ServerRecord upsert + Snapshot insert,
`onlineServers++`), `.offline` the `markServerOffline` path
(`offlineServers++`). -/
inductive ProbeOutcome where
  | online
  | offline
deriving Repr, DecidableEq

/-- JS truthiness of the resolved `serverInfo`: an object is always truthy. -/
def jsTruthyInfo (_ : A2SInfo) : Bool := true

/-- JS truthiness of the resolved `playerInfo`: an array is an object, always
truthy (even when empty). -/
def jsTruthyPlayers (_ : List PlayerEntry) : Bool := true

/-- `queryServer` from `src/scanner/service.js`, lines 223-255.  The two
queries run under `Promise.all`: the combined promise resolves only when BOTH
resolve, and rejects as soon as either rejects, in which case control reaches
the `catch` block, which calls `markServerOffline`.  When both resolve, the
`if (serverInfo || playerInfo)` branch saves the server (both values are
truthy objects, so the `else` is unreachable). -/
def queryServer (infoRes : Except QueryError A2SInfo)
    (playerRes : Except QueryError (List PlayerEntry)) : ProbeOutcome :=
  match infoRes, playerRes with
  | .ok serverInfo, .ok playerInfo =>
    if jsTruthyInfo serverInfo || jsTruthyPlayers playerInfo then .online else .offline
  | _, _ => .offline

/-- A concrete parsed info object (decode of `demoInfoBuf`). -/
def demoInfo : A2SInfo :=
  { protocol := some 17
    name := { value := litBytes "ab", length := 2 }
    map := litBytes "cd"
    folder := litBytes "e"
    game := litBytes "f"
    players := some 3
    max_players := some 10
    bots := some 1
    server_type := 100
    environment := 108
    visibility := some 0
    vac := some 1
    version := litBytes "1"
    port := 0
    tags := [] }

/-- A concrete successful player-query result: one connected player. -/
def demoPlayers : List PlayerEntry :=
  [{ index := 0, name := litBytes "gracz", score := 7, duration := 125 }]

/-! ## Persistence gateway (`src/database/index.js`) -/

/-- The mutable columns of a `servers` row, i.e. the fields of the
`serverData` object passed to `insertServer` (minus the identity). -/
structure ServerFields where
  name : String
  map : String
  description : String
  tags : String
  max_players : Nat
  password_protected : Bool
  secure : Bool
  version : String
  os : String
  game_id : Nat
  country : String
  region : String
deriving Repr, DecidableEq

/-- The `serverData` argument of `insertServer`: identity plus fields. -/
structure ServerData where
  ip : String
  port : Nat
  fields : ServerFields
deriving Repr, DecidableEq

/-- One row of the `servers` table (`DatabaseSchema.createTables`): identity
is `UNIQUE(ip, port)`; `first_seen` and `last_seen` default to
`CURRENT_TIMESTAMP` and `is_active` to 1. -/
structure ServerRow where
  id : Nat
  ip : String
  port : Nat
  fields : ServerFields
  first_seen : Nat
  last_seen : Nat
  is_active : Bool
deriving Repr, DecidableEq

/-- `insertServer` from `src/database/index.js`, lines 49-66:
`INSERT OR REPLACE INTO servers (ip, port, …, last_seen) VALUES (…, CURRENT_TIMESTAMP)`.
SQLite `INSERT OR REPLACE` deletes every row that would violate
`UNIQUE(ip, port)` and inserts a brand-new row; columns missing from the
column list take their declared defaults, so the new row gets
`first_seen = CURRENT_TIMESTAMP`, `is_active = 1` and a fresh autoincrement
id.  State is the row list plus the autoincrement counter; `now` is
`CURRENT_TIMESTAMP`. -/
def insertServer (table : List ServerRow) (nextId : Nat) (d : ServerData)
    (now : Nat) : List ServerRow × Nat :=
  let kept := table.filter fun r => !(r.ip == d.ip && r.port == d.port)
  (kept ++ [{ id := nextId, ip := d.ip, port := d.port, fields := d.fields,
              first_seen := now, last_seen := now, is_active := true }],
   nextId + 1)

/-- One row of the `polish_server_predictions` table
(`MLDatabaseSchema.createMLTables`); `manual_feedback`, `feedback_time` and
`feedback_reason` are NULL until feedback is submitted. -/
structure PredictionRow where
  id : Nat
  server_id : Nat
  is_polish_predicted : Bool
  confidence : ℚ
  prediction_reason : String
  needs_review : Bool
  manual_feedback : Option String
  feedback_time : Option Nat
  feedback_reason : Option String
deriving Repr, DecidableEq

/-- `submitFeedback` from `src/database/index.js`, lines 132-142:
`UPDATE polish_server_predictions SET manual_feedback = ?, feedback_time =
CURRENT_TIMESTAMP, feedback_reason = ? WHERE server_id = ? AND
manual_feedback IS NULL`. -/
def submitFeedback (table : List PredictionRow) (serverId : Nat)
    (feedback reason : String) (now : Nat) : List PredictionRow :=
  table.map fun r =>
    if r.server_id == serverId && r.manual_feedback.isNone then
      { r with manual_feedback := some feedback,
               feedback_time := some now,
               feedback_reason := some reason }
    else r

/-- The dashboard's name normalization (`/api/stats` recentServers query and
`/api/polish-servers`): `CASE WHEN name = '[object Object]' OR name IS NULL
THEN 'Unknown Server' ELSE name END`. -/
def normalizeDashboardName (name : Option String) : String :=
  match name with
  | none => "Unknown Server"
  | some s => if s = "[object Object]" then "Unknown Server" else s

/-! ## Steam client rate limiter (`checkRateLimit` in `src/steam/client.js`) -/

/-- `checkRateLimit` from `src/steam/client.js`, lines 32-54, as a function of
the timestamp window `hist` and the call time `now` (ms).  Returns the new
window and the time at which the call completes (after the `setTimeout` wait,
modelled exact).  Mirrors the source: drop timestamps with
`now - t >= window`; if the window still holds `cap` or more, wait
`window - (now - oldest)` where `oldest = Math.min(...history)`, re-filter
at the post-wait clock, and finally push the ORIGINAL `now` (the source
pushes the `now` captured before waiting, not a fresh `Date.now()`).
`Math.min` of the filtered window is `min?.getD now`; the default is only
reachable on an empty window, which requires the degenerate cap 0
(`Math.min()` is `Infinity` in JS), so theorems assume `0 < cap`. -/
def checkRateLimit (window cap : Nat) (hist : List Nat) (now : Nat) :
    List Nat × Nat :=
  let h1 := hist.filter fun t => now - t < window
  if cap ≤ h1.length then
    let oldest := h1.min?.getD now
    let waitTime := window - (now - oldest)
    let now2 := now + waitTime
    let h2 := h1.filter fun t => now2 - t < window
    (h2 ++ [now], now2)
  else
    (h1 ++ [now], now)

/-- Issue times of `n` back-to-back `makeRequest` calls starting at `t0`:
each call runs `checkRateLimit` as soon as the previous one completed, and
the actual network request fires at the completion time. -/
def runRequests (window cap : Nat) : Nat → List Nat → Nat → List Nat
  | 0, _, _ => []
  | n + 1, hist, now =>
    let r := checkRateLimit window cap hist now
    r.2 :: runRequests window cap n r.1 r.2

example : runRequests 1000 3 4 [] 0 = [0, 0, 0, 1000] := by decide

example : runRequests 1000 3 7 [] 0 = [0, 0, 0, 1000, 1000, 1000, 1000] := by decide

/-! ## Enrichment queue (`src/steam/service.js`) -/

/-- A queue item as built in `addToQueue`:
`{ steamId, priority, addedAt: Date.now(), retryCount: 0 }`. -/
structure QueueItem where
  steamId : String
  priority : String
  addedAt : Nat
  retryCount : Nat
deriving Repr, DecidableEq

/-- `addToQueue(steamIds, priority)` from `src/steam/service.js`, lines
31-54: high-priority items are unshifted onto the front, others pushed on
the back; `now` is the shared `Date.now()` of the call. -/
def addToQueue (queue : List QueueItem) (steamIds : List String)
    (priority : String) (now : Nat) : List QueueItem :=
  let queueItems := steamIds.map fun s =>
    { steamId := s, priority := priority, addedAt := now, retryCount := 0 }
  if priority == "high" then queueItems ++ queue else queue ++ queueItems

/-- The `processQueue` sort comparator as a boolean "less or equal"
(`compare(a,b) <= 0`): `-1` if `a` is high and `b` is not, `1` if `b` is high
and `a` is not, otherwise `b.addedAt - a.addedAt` (recent first). -/
def queueCmpLe (a b : QueueItem) : Bool :=
  if a.priority == "high" && !(b.priority == "high") then true
  else if b.priority == "high" && !(a.priority == "high") then false
  else b.addedAt ≤ a.addedAt

/-- The in-loop reordering of `processQueue` (lines 65-75):
`this.processingQueue.sort(comparator)`.  ECMAScript `Array.prototype.sort`
produces the stable sort of the list under a consistent comparator, which is
exactly `List.mergeSort`. -/
def sortQueue (queue : List QueueItem) : List QueueItem :=
  queue.mergeSort queueCmpLe

/-- `this.processingQueue.splice(0, this.batchSize)` after the sort: the
batch handed to `processBatch`. -/
def nextBatch (queue : List QueueItem) (batchSize : Nat) : List QueueItem :=
  (sortQueue queue).take batchSize

/-- The queue of the claim's scenario: 2 normal items enqueued at time 0,
then 1 high-priority item at time 1. -/
def demoQueue : List QueueItem :=
  addToQueue (addToQueue [] ["n1", "n2"] "normal" 0) ["h1"] "high" 1

example :
    (nextBatch demoQueue 50).map (fun x => x.steamId) = ["h1", "n1", "n2"] := by
  simp [nextBatch, sortQueue, demoQueue, addToQueue, queueCmpLe, List.mergeSort]

/-! ## Classification ensemble (`MLService`) -/

/-- A Polish-server prediction result object
(`{is_polish, confidence, needs_review, prediction_reason}`). -/
structure PolishPrediction where
  is_polish : Bool
  confidence : ℚ
  needs_review : Bool
  prediction_reason : String
deriving Repr, DecidableEq

/-- `this.polishConfidenceThreshold` from the `MLService` constructor. -/
def polishConfidenceThreshold : ℚ := 0.7

/-- `this.reviewThreshold` from the `MLService` constructor. -/
def reviewThreshold : ℚ := 0.5

/-- JS `Math.round`: round half toward positive infinity. -/
def jsRound (q : ℚ) : ℤ := ⌊q + 1/2⌋

/-- `combinePolishPredictions(ruleBased, ml)` from `MLService`:
`combinedConfidence = ruleBased.confidence * 0.6 + ml.confidence * 0.4`,
label `combinedConfidence > 0.5`, review flag
`combinedConfidence > 0.3 && combinedConfidence < polishConfidenceThreshold`. -/
def combinePolishPredictions (ruleBased ml : PolishPrediction) : PolishPrediction :=
  let combinedConfidence := ruleBased.confidence * 0.6 + ml.confidence * 0.4
  let rulePct := jsRound (ruleBased.confidence * 100)
  let mlPct := jsRound (ml.confidence * 100)
  { is_polish := decide (combinedConfidence > 0.5)
    confidence := combinedConfidence
    needs_review :=
      decide (combinedConfidence > 0.3 ∧ combinedConfidence < polishConfidenceThreshold)
    prediction_reason := s!"Combined: Rule={rulePct}%, ML={mlPct}%" }

/-! ## Rule-based gamemode classifier (`predictGamemodeRuleBased`)

The ten seed patterns of `this.gamemodePatterns` all have the shape
`/\b(alt|alt|…)\b/i` where each alternative is a literal (lower-case) string,
possibly with one `\s*` inside.  The matcher below implements exactly this
regex fragment on byte lists: ECMAScript `RegExp.prototype.test` / `match`
find the leftmost position at which some alternative (tried in order)
matches, `\b` is a word/non-word boundary, and `\s*` greedily consumes
whitespace (greediness is exact here because every `\s*` in the patterns is
followed by a non-space literal, so no backtracking can occur).  The blob is
lower-cased before matching, mirroring `.toLowerCase()` (ASCII model), which
also makes the `/i` flag a no-op. -/

/-- A token of a pattern alternative: a literal byte or `\s*`. -/
inductive RTok where
  | lit : Nat → RTok
  | wsStar : RTok
deriving Repr, DecidableEq

/-- Literal tokens of an ASCII string. -/
def litToks (s : String) : List RTok := s.data.map fun c => RTok.lit c.toNat

/-- ECMAScript word character (`\w`): `[A-Za-z0-9_]`. -/
def isWordByte (c : Nat) : Bool :=
  (48 ≤ c && c ≤ 57) || (65 ≤ c && c ≤ 90) || (97 ≤ c && c ≤ 122) || c == 95

/-- ECMAScript whitespace (`\s`), ASCII part. -/
def isSpaceByte (c : Nat) : Bool :=
  c == 32 || c == 9 || c == 10 || c == 11 || c == 12 || c == 13

/-- Length of the leading whitespace run (what `\s*` consumes). -/
def countSpaces : List Nat → Nat
  | [] => 0
  | c :: rest => if isSpaceByte c then countSpaces rest + 1 else 0

/-- Match an alternative's token list against a prefix of `xs`; returns the
number of consumed bytes. -/
def matchToks : List RTok → List Nat → Option Nat
  | [], _ => some 0
  | .lit _ :: _, [] => none
  | .lit c :: rest, x :: xs => if x == c then (matchToks rest xs).map (· + 1) else none
  | .wsStar :: rest, xs =>
    let k := countSpaces xs
    (matchToks rest (xs.drop k)).map (· + k)

/-- `\b` at gap position `i` of `text`: the word-ness of the byte before the
gap differs from the word-ness of the byte after it (out of range counts as
non-word). -/
def boundaryAt (text : List Nat) (i : Nat) : Bool :=
  let prev := match i with
    | 0 => false
    | j + 1 => isWordByte (text.getD j 0)
  let curr := isWordByte (text.getD i 0)
  prev != curr

/-- Match one alternative at position `i`, with the surrounding `\b`s. -/
def matchAltAt (text : List Nat) (i : Nat) (alt : List RTok) : Option Nat :=
  if boundaryAt text i then
    match matchToks alt (text.drop i) with
    | some n => if boundaryAt text (i + n) then some n else none
    | none => none
  else none

/-- `text.match(/\b(alts)\b/)`: leftmost matching position, alternatives in
written order; returns `(start, length of the match)`. -/
def findPatternMatch (alts : List (List RTok)) (text : List Nat) :
    Option (Nat × Nat) :=
  (List.range (text.length + 1)).findSome? fun i =>
    (alts.findSome? fun alt => matchAltAt text i alt).map fun n => (i, n)

/-- The alternatives of `/\b(darkrp|dark\s*rp|roleplay|rp)\b/i`. -/
def darkrpAlts : List (List RTok) :=
  [litToks "darkrp", litToks "dark" ++ [RTok.wsStar] ++ litToks "rp",
   litToks "roleplay", litToks "rp"]

/-- `this.gamemodePatterns` from the `MLService` constructor, in declaration
order (`Object.entries` preserves insertion order). -/
def gamemodePatterns : List (String × List (List RTok)) :=
  [("darkrp", darkrpAlts),
   ("sandbox", [litToks "sandbox", litToks "build", litToks "creative"]),
   ("ttt", [litToks "ttt", litToks "trouble", litToks "terrorist", litToks "traitor"]),
   ("prophunt", [litToks "prop" ++ [RTok.wsStar] ++ litToks "hunt",
                 litToks "prophunt", litToks "hide"]),
   ("murder", [litToks "murder", litToks "gm_murder"]),
   ("deathrun", [litToks "deathrun", litToks "death" ++ [RTok.wsStar] ++ litToks "run",
                 litToks "dr_"]),
   ("jailbreak", [litToks "jailbreak", litToks "jail" ++ [RTok.wsStar] ++ litToks "break",
                  litToks "prison"]),
   ("zombiesurvival", [litToks "zombie", litToks "zs_", litToks "survival"]),
   ("cinema", [litToks "cinema", litToks "movie", litToks "theater"]),
   ("militaryrp", [litToks "military", litToks "milrp", litToks "army", litToks "war"])]

/-- The score of a matching detector:
`matches[0].length / text.length + 0.5`. -/
def ruleScore (matchLen textLen : Nat) : ℚ :=
  (matchLen : ℚ) / (textLen : ℚ) + 0.5

/-- Result object of `predictGamemodeRuleBased`. -/
structure GamemodeResult where
  gamemode : String
  confidence : ℚ
  needs_review : Bool
  prediction_reason : String
deriving Repr, DecidableEq

/-- The `for (const [gamemode, pattern] of Object.entries(...))` loop of
`predictGamemodeRuleBased`: accumulates `bestMatch` and `highestScore`,
replacing them when `score > highestScore`. -/
def ruleScan (text : List Nat) :
    List (String × List (List RTok)) → Option String → ℚ → Option String × ℚ
  | [], best, hi => (best, hi)
  | (gm, alts) :: rest, best, hi =>
    match findPatternMatch alts text with
    | some (_, n) =>
      let score := ruleScore n text.length
      if hi < score then ruleScan text rest (some gm) score
      else ruleScan text rest best hi
    | none => ruleScan text rest best hi

/-- ASCII `toLowerCase`. -/
def jsToLowerByte (c : Nat) : Nat := if 65 ≤ c ∧ c ≤ 90 then c + 32 else c

/-- The normalized text blob:
`` `${name} ${tags} ${map}`.toLowerCase() ``. -/
def mkBlob (name tags mapName : List Nat) : List Nat :=
  (name ++ [32] ++ tags ++ [32] ++ mapName).map jsToLowerByte

/-- `predictGamemodeRuleBased(serverData)` from `MLService`. -/
def predictGamemodeRuleBased (name tags mapName : List Nat) : GamemodeResult :=
  let text := mkBlob name tags mapName
  let r := ruleScan text gamemodePatterns none 0
  { gamemode := r.1.getD "unknown"
    confidence := min r.2 0.95
    needs_review := decide (r.2 < reviewThreshold)
    prediction_reason :=
      match r.1 with
      | some gm => s!"Rule-based match: {gm}"
      | none => "No pattern match" }

/-- Patterns that do not match leave the accumulator untouched. -/
theorem ruleScan_of_no_match (text : List Nat) :
    ∀ (pats : List (String × List (List RTok))) (best : Option String) (hi : ℚ),
      (∀ p ∈ pats, findPatternMatch p.2 text = none) →
      ruleScan text pats best hi = (best, hi) := by
  intro pats
  induction pats with
  | nil => intro best hi _; rfl
  | cons p rest ih =>
    intro best hi h
    obtain ⟨gm, alts⟩ := p
    have hp := h ⟨gm, alts⟩ (List.mem_cons_self _ _)
    simp only [ruleScan, hp]
    exact ih best hi fun q hq => h q (List.mem_cons_of_mem _ hq)

/-- Once a detector has been recorded, the final `bestMatch` can never revert
to `null`: `ruleScan` only ever replaces it with another `some`. -/
theorem ruleScan_best_ne_none (text : List Nat) :
    ∀ (pats : List (String × List (List RTok))) (gm₀ : String) (hi : ℚ),
      (ruleScan text pats (some gm₀) hi).1 ≠ none := by
  intro pats
  induction pats with
  | nil => intro gm₀ hi; simp [ruleScan]
  | cons p rest ih =>
    intro gm₀ hi
    obtain ⟨gm, alts⟩ := p
    simp only [ruleScan]
    cases hfind : findPatternMatch alts text with
    | none => exact ih gm₀ hi
    | some v =>
      obtain ⟨i, n⟩ := v
      by_cases hlt : hi < ruleScore n text.length
      · simp only [hlt, if_true]
        exact ih gm _
      · simp only [hlt, if_false]
        exact ih gm₀ hi

example : (predictGamemodeRuleBased (litBytes "xdarkrpy") [] []).gamemode = "unknown" := by
  decide

/-! ## Persisted server name and dashboard normalization -/

/-- A JS value flowing into the `name` parameter of the `servers` INSERT:
either a string or the `{value, length}` record (see `A2SInfo.name`). -/
inductive JsVal where
  | str : String → JsVal
  | obj : JsStr → JsVal
deriving Repr, DecidableEq

/-- `name: serverInfo?.name || 'Unknown'` from `saveServerData`: when an info
object is present, its `name` — the whole `readString` record, a truthy
object — is taken; otherwise the fallback string. -/
def savedServerName (serverInfo : Option A2SInfo) : JsVal :=
  match serverInfo with
  | some i => JsVal.obj i.name
  | none => JsVal.str "Unknown"

/-- The TEXT that reaches the `servers.name` column: a JS string binds as-is;
a plain object is coerced through the default `Object.prototype.toString`,
which yields `"[object Object]"` (the dashboard queries explicitly normalize
exactly this stored value). -/
def jsValToDbText : JsVal → String
  | .str s => s
  | .obj _ => "[object Object]"

/-! ## Theorems for the claims -/

/-- C1: the claim states the either/both rule — a probe is online whenever at
least one of the info-query and the player-query succeeds, in particular when
the info-query times out but the player-query succeeds, and offline only when
both fail.  The code runs the two queries under `Promise.all`, which rejects
as soon as either query rejects, so a timed-out info-query sends the probe to
the `catch` path and `markServerOffline` even though the player-query
succeeded: the code evaluates to `.offline` at the claim's failing input.
(When both queries succeed the probe is online, third conjunct.) -/
theorem c1_partial_failure_marks_offline :
    queryServer (Except.error QueryError.timeout) (Except.ok demoPlayers) = ProbeOutcome.offline ∧
    queryServer (Except.ok demoInfo) (Except.error QueryError.timeout) = ProbeOutcome.offline ∧
    queryServer (Except.ok demoInfo) (Except.ok demoPlayers) = ProbeOutcome.online :=
  ⟨rfl, rfl, rfl⟩

/-- C2 counterexample: decoding the 12-byte directory response made of 6
header bytes followed by the record `192,168,1,1,0x69,0xA7` yields NO
candidates — not the claimed one candidate — because the loop condition
`offset < msg.length - 6` stops 6 bytes before the end of the buffer and the
single record occupies exactly those last 6 bytes. -/
theorem c2_twelve_byte_response_yields_no_candidate :
    parseMasterResponse [255, 255, 255, 255, 102, 10, 192, 168, 1, 1, 105, 167] = [] ∧
    ["192.168.1.1:27047"] ≠ ([] : List String) := by
  constructor
  · decide
  · decide

/-- Index helper: reading past a left component of an append lands in the
right component. -/
theorem getD_append_add (l l' : List Nat) (i d : Nat) :
    (l ++ l').getD (l.length + i) d = l'.getD i d := by
  simp [List.getD_eq_getElem?_getD, List.getElem?_append_right (Nat.le_add_right l.length i),
    Nat.add_sub_cancel_left]

/-- The candidate decoded at the start of a record equals the record's
candidate, whatever follows the record in the buffer. -/
theorem masterCandidate_at_record (prefixPart : List Nat) (r : MasterRec) (rest : List Nat) :
    masterCandidate (prefixPart ++ (r.bytes ++ rest)) prefixPart.length = r.candidate := by
  have h0 : (prefixPart ++ (r.bytes ++ rest)).getD prefixPart.length 0 = r.a := by
    simpa [MasterRec.bytes] using getD_append_add prefixPart (r.bytes ++ rest) 0 0
  have h1 : (prefixPart ++ (r.bytes ++ rest)).getD (prefixPart.length + 1) 0 = r.b := by
    simpa [MasterRec.bytes] using getD_append_add prefixPart (r.bytes ++ rest) 1 0
  have h2 : (prefixPart ++ (r.bytes ++ rest)).getD (prefixPart.length + 2) 0 = r.c := by
    simpa [MasterRec.bytes] using getD_append_add prefixPart (r.bytes ++ rest) 2 0
  have h3 : (prefixPart ++ (r.bytes ++ rest)).getD (prefixPart.length + 3) 0 = r.d := by
    simpa [MasterRec.bytes] using getD_append_add prefixPart (r.bytes ++ rest) 3 0
  have h4 : (prefixPart ++ (r.bytes ++ rest)).getD (prefixPart.length + 4) 0 = r.p1 := by
    simpa [MasterRec.bytes] using getD_append_add prefixPart (r.bytes ++ rest) 4 0
  have h5 : (prefixPart ++ (r.bytes ++ rest)).getD (prefixPart.length + 5) 0 = r.p2 := by
    simpa [MasterRec.bytes] using getD_append_add prefixPart (r.bytes ++ rest) 5 0
  simp only [masterCandidate, MasterRec.candidate, h0, h1, h2, h3, h4, h5]

/-- C2 (amended), general loop shape: parsing a buffer made of an arbitrary
prefix, consecutive 6-byte records, and any 6 trailing bytes (e.g. the
terminator record), starting at the end of the prefix, decodes exactly the
records in order; the trailing 6 bytes are never decoded. -/
theorem parseMasterLoop_records (records : List MasterRec) :
    ∀ (prefixPart trailer : List Nat) (fuel : Nat), trailer.length = 6 →
      (prefixPart ++ (records.map MasterRec.bytes).flatten ++ trailer).length
          - prefixPart.length ≤ fuel →
      parseMasterLoop fuel (prefixPart ++ (records.map MasterRec.bytes).flatten ++ trailer)
          prefixPart.length = records.map MasterRec.candidate := by
  induction records with
  | nil =>
    intro prefixPart trailer fuel htr _
    cases fuel with
    | zero => rfl
    | succ f =>
      simp only [List.map_nil, List.flatten_nil, List.append_nil, parseMasterLoop]
      rw [if_neg]
      simp [List.length_append, htr]
  | cons r rs ih =>
    intro prefixPart trailer fuel htr hfuel
    have hsplit : prefixPart ++ (List.map MasterRec.bytes (r :: rs)).flatten ++ trailer =
        prefixPart ++ (r.bytes ++ ((rs.map MasterRec.bytes).flatten ++ trailer)) := by
      simp [List.append_assoc]
    have hlen : (prefixPart ++ (List.map MasterRec.bytes (r :: rs)).flatten ++ trailer).length =
        prefixPart.length + 6 + ((rs.map MasterRec.bytes).flatten).length + 6 := by
      rw [hsplit]
      simp [List.length_append, MasterRec.bytes, htr]
      omega
    cases fuel with
    | zero =>
      exfalso
      rw [hlen] at hfuel
      omega
    | succ f =>
      simp only [parseMasterLoop]
      rw [if_pos (by rw [hlen]; omega), hsplit, masterCandidate_at_record]
      have hre : prefixPart ++ (r.bytes ++ ((rs.map MasterRec.bytes).flatten ++ trailer)) =
          (prefixPart ++ r.bytes) ++ (rs.map MasterRec.bytes).flatten ++ trailer := by
        simp [List.append_assoc]
      have hoff : prefixPart.length + 6 = (prefixPart ++ r.bytes).length := by
        simp [List.length_append, MasterRec.bytes]
      have hfuel2 : ((prefixPart ++ r.bytes) ++ (rs.map MasterRec.bytes).flatten ++ trailer).length
          - (prefixPart ++ r.bytes).length ≤ f := by
        rw [← hre, ← hsplit, ← hoff]
        rw [hlen] at hfuel ⊢
        omega
      rw [hre, hoff, ih (prefixPart ++ r.bytes) trailer f htr hfuel2]
      simp [List.map_cons]

/-- C2 (amended): the 12-byte buffer of the claim decodes to no candidates
(see the counterexample); in general the parser reads consecutive 6-byte
records — 4 IPv4 octets then a 2-byte big-endian port — starting at offset 6
and decodes a record only while its start offset is below `length - 6`, so
with a 6-byte header and a 6-byte trailing terminator it decodes exactly the
records in between; in particular an 18-byte buffer of header +
`192,168,1,1,0x69,0xA7` + terminator yields exactly `"192.168.1.1:27047"`. -/
theorem c2_directory_parse_shape (header : List Nat) (records : List MasterRec)
    (trailer : List Nat) (hh : header.length = 6) (htr : trailer.length = 6) :
    parseMasterResponse (header ++ (records.map MasterRec.bytes).flatten ++ trailer) =
      records.map MasterRec.candidate := by
  have h := parseMasterLoop_records records header trailer
    (header ++ (records.map MasterRec.bytes).flatten ++ trailer).length htr (by omega)
  rw [parseMasterResponse, ← hh]
  exact h

/-- C2 witness: the general theorem applied to the claim's record with a real
header and a terminator record appended: exactly one candidate,
`192.168.1.1:27047`. -/
theorem c2_directory_parse_shape_witness :
    parseMasterResponse
        ([255, 255, 255, 255, 102, 10] ++
          ([{ a := 192, b := 168, c := 1, d := 1, p1 := 105, p2 := 167 }].map
            MasterRec.bytes).flatten ++ [0, 0, 0, 0, 0, 0]) =
      ["192.168.1.1:27047"] := by
  have h := c2_directory_parse_shape [255, 255, 255, 255, 102, 10]
    [{ a := 192, b := 168, c := 1, d := 1, p1 := 105, p2 := 167 }]
    [0, 0, 0, 0, 0, 0] (by decide) (by decide)
  rw [h]
  decide

/-- C3 counterexample: truncating the well-formed info response inside a
string field does NOT make the decoder fail.  `demoInfoBuf.dropLast` ends
inside the version string field (its terminator is cut off) and
`demoInfoBuf.take 9` ends in the middle of the map string field; both decode
successfully — there is no `MalformedResponse` (or any other) failure path in
`parseA2SInfo`. -/
theorem c3_truncated_info_still_decodes :
    (parseA2SInfo demoInfoBuf.dropLast).isOk = true ∧
    (parseA2SInfo (demoInfoBuf.take 9)).isOk = true := by
  constructor
  · decide
  · decide

/-- C3 (amended): the decoder is total and never fails — every buffer, in
particular every truncation of a well-formed response, decodes to `.ok`
(`readString` stops at the buffer end and single-byte reads past the end
yield `undefined`, so no out-of-bounds access and no exception occurs); a
string field cut mid-way comes back as its remaining bytes (the map field of
`demoInfoBuf.take 9` decodes to `"c"`, byte 99) instead of an error. -/
theorem c3_parseA2SInfo_total :
    (∀ buffer : List Nat, (parseA2SInfo buffer).isOk = true) ∧
    (parseA2SInfo (demoInfoBuf.take 9)).toOption.map A2SInfo.map = some [99] := by
  refine ⟨fun buffer => rfl, ?_⟩
  decide

/-- Concrete field values for the first upsert of the C4 scenario. -/
def demoFields1 : ServerFields :=
  { name := "Old name", map := "gm_construct", description := "", tags := "old",
    max_players := 16, password_protected := false, secure := false,
    version := "2024.01", os := "l", game_id := 4000,
    country := "Unknown", region := "Unknown" }

/-- Concrete field values for the second upsert of the C4 scenario. -/
def demoFields2 : ServerFields :=
  { demoFields1 with name := "New name", map := "rp_downtown_v2", tags := "new" }

/-- C4 counterexample: `insertServer` twice for the same `(ip, port)` at
times 10 then 20 leaves one row whose `first_seen` is 20 — the time of the
SECOND call, not the first (the claim says `first_seen` is unchanged from the
first call).  `INSERT OR REPLACE` deletes the old row and re-inserts, so the
`first_seen` column falls back to its `CURRENT_TIMESTAMP` default. -/
theorem c4_first_seen_reset_by_replace :
    (let s1 := insertServer [] 1 { ip := "192.168.1.1", port := 27015, fields := demoFields1 } 10
     let s2 := insertServer s1.1 s1.2 { ip := "192.168.1.1", port := 27015, fields := demoFields2 } 20
     s2.1.map ServerRow.first_seen = [20]) ∧ (20 : Nat) ≠ 10 := by
  constructor
  · decide
  · decide

/-- C4 (amended): calling `insertServer` twice with the same identity leaves
exactly one row for that identity, whose fields equal the SECOND call's
values — but whose `first_seen` (and id) come from the second call as well:
`INSERT OR REPLACE` deletes the first row, so `first_seen` is reset to the
second call's timestamp rather than preserved. -/
theorem c4_upsert_twice (table : List ServerRow) (nextId : Nat) (d1 d2 : ServerData)
    (t1 t2 : Nat) (hip : d1.ip = d2.ip) (hport : d1.port = d2.port) :
    (let s1 := insertServer table nextId d1 t1
     let s2 := insertServer s1.1 s1.2 d2 t2
     s2.1.filter (fun r => r.ip == d2.ip && r.port == d2.port) =
       [{ id := nextId + 1, ip := d2.ip, port := d2.port, fields := d2.fields,
          first_seen := t2, last_seen := t2, is_active := true }]) := by
  simp only [insertServer, List.filter_append, List.filter_filter]
  have hnil : List.filter (fun a : ServerRow =>
      a.ip == d2.ip && a.port == d2.port &&
        (!(a.ip == d2.ip && a.port == d2.port) && !(a.ip == d1.ip && a.port == d1.port)))
      table = [] := by
    rw [List.filter_eq_nil_iff]
    intro a _
    by_cases h : (a.ip == d2.ip && a.port == d2.port) = true
    · simp [h]
    · simp [h]
  rw [hnil]
  simp [List.filter, hip, hport]

/-- C4 witness: the amended theorem at the concrete scenario of the
counterexample. -/
theorem c4_upsert_twice_witness :
    (let s1 := insertServer [] 1 { ip := "192.168.1.1", port := 27015, fields := demoFields1 } 10
     let s2 := insertServer s1.1 s1.2 { ip := "192.168.1.1", port := 27015, fields := demoFields2 } 20
     s2.1.filter (fun r => r.ip == "192.168.1.1" && r.port == 27015) =
       [{ id := 2, ip := "192.168.1.1", port := 27015, fields := demoFields2,
          first_seen := 20, last_seen := 20, is_active := true }]) :=
  c4_upsert_twice [] 1 { ip := "192.168.1.1", port := 27015, fields := demoFields1 }
    { ip := "192.168.1.1", port := 27015, fields := demoFields2 } 10 20 rfl rfl

/-- C5 counterexample to "no window of length W ever contains more than N
issued requests": with a cap of 3 per 1000 ms, 7 back-to-back requests from
t = 0 are issued at [0, 0, 0, 1000, 1000, 1000, 1000] — after the 4th call
waits out the window, it records its PRE-wait arrival time 0, which is
already outside the window, so the 5th–7th calls pass immediately and the
window [500, 1500) of length 1000 contains 4 > 3 issued requests. -/
theorem c5_sliding_window_not_exact :
    runRequests 1000 3 7 [] 0 = [0, 0, 0, 1000, 1000, 1000, 1000] ∧
    (runRequests 1000 3 7 [] 0).countP
      (fun t => decide (500 ≤ t) && decide (t < 1500)) = 4 ∧
    3 < 4 := by
  refine ⟨by decide, by decide, by decide⟩

/-- C5 (amended): when the filtered window already holds at least `cap`
timestamps, `checkRateLimit` completes exactly when the oldest timestamp
exits the window (`oldest + window`); in particular with a cap of 3 per
1-second window, 4 back-to-back requests from t = 0 complete at
[0, 0, 0, 1000] — the 4th no earlier than one second after the 1st.  (The
claim's further assertion that therefore no window of length W ever holds
more than N issued requests fails: see the counterexample — the limiter
records the pre-wait arrival time, not the issue time.) -/
theorem c5_blocks_until_oldest_exits :
    (∀ (window cap : Nat) (hist : List Nat) (now : Nat), 0 < cap →
        (∀ t ∈ hist, t ≤ now) →
        cap ≤ (hist.filter fun t => now - t < window).length →
        (checkRateLimit window cap hist now).2 =
          ((hist.filter fun t => now - t < window).min?.getD now) + window) ∧
    runRequests 1000 3 4 [] 0 = [0, 0, 0, 1000] := by
  refine ⟨?_, by decide⟩
  intro window cap hist now _ hle hfull
  simp only [checkRateLimit]
  rw [if_pos hfull]
  cases hmin : (hist.filter fun t => now - t < window).min? with
  | none =>
    simp only [Option.getD_none]
    omega
  | some m =>
    have hmem : m ∈ hist.filter fun t => now - t < window :=
      List.min?_mem (fun a b => min_choice a b) hmin
    have hm_le : m ≤ now := hle m (List.mem_of_mem_filter hmem)
    have hm_win : now - m < window := by
      have h := (List.mem_filter.1 hmem).2
      exact of_decide_eq_true h
    simp only [Option.getD_some]
    omega

/-- C5 witness: the blocking rule at a full window [0,0,0] with cap 3,
window 1000 ms, call at t = 0: the call completes at 1000. -/
theorem c5_blocks_until_oldest_exits_witness :
    (checkRateLimit 1000 3 [0, 0, 0] 0).2 = 1000 := by
  have h := c5_blocks_until_oldest_exits.1 1000 3 [0, 0, 0] 0 (by decide) (by decide) (by decide)
  rw [h]
  decide

/-- C6: feedback attaches at most once per prediction: a second
`submitFeedback` call for the same server's prediction rows is a no-op —
the `WHERE manual_feedback IS NULL` guard fails on every row the first call
updated (their `manual_feedback` is now non-NULL) and on every row it
skipped (unchanged), so the first call's `manual_feedback`,
`feedback_time` and `feedback_reason` are preserved verbatim. -/
theorem c6_feedback_attaches_once (table : List PredictionRow) (serverId : Nat)
    (f1 r1 : String) (t1 : Nat) (f2 r2 : String) (t2 : Nat) :
    submitFeedback (submitFeedback table serverId f1 r1 t1) serverId f2 r2 t2 =
      submitFeedback table serverId f1 r1 t1 := by
  unfold submitFeedback
  rw [List.map_map]
  apply List.map_congr_left
  intro r _
  simp only [Function.comp_apply]
  by_cases h1 : r.server_id = serverId
  · by_cases h2 : r.manual_feedback = none
    · simp [h1, h2]
    · simp [h1, h2]
  · simp [h1]

/-- The queue comparator is total (as a "less or equal"). -/
theorem queueCmpLe_total (a b : QueueItem) : queueCmpLe a b || queueCmpLe b a := by
  unfold queueCmpLe
  by_cases ha : a.priority == "high" <;> by_cases hb : b.priority == "high" <;>
    simp [ha, hb] <;> omega

/-- The queue comparator is transitive. -/
theorem queueCmpLe_trans (a b c : QueueItem) :
    queueCmpLe a b → queueCmpLe b c → queueCmpLe a c := by
  unfold queueCmpLe
  by_cases ha : a.priority == "high" <;> by_cases hb : b.priority == "high" <;>
    by_cases hc : c.priority == "high" <;> simp [ha, hb, hc] <;> omega

/-- Interpretation of one comparator fact: a high item never follows a
non-high item, and inside a priority class later items are no more recent. -/
theorem queueCmpLe_interp (a b : QueueItem) (h : queueCmpLe a b = true) :
    (b.priority = "high" → a.priority = "high") ∧
    ((a.priority = "high" ↔ b.priority = "high") → b.addedAt ≤ a.addedAt) := by
  unfold queueCmpLe at h
  by_cases ha : a.priority = "high" <;> by_cases hb : b.priority = "high" <;>
    simp [ha, hb] at h ⊢ <;> omega

/-- C7: after the in-loop sort, every pair of items in order satisfies: if the
later one is high-priority then so is the earlier one (all high items precede
all normal items), and items of the same priority class appear in
non-increasing `addedAt` order (more recently enqueued first, LIFO within
class); concretely, enqueueing 2 normal items then 1 high-priority item makes
the next batch start with the high-priority item. -/
theorem c7_queue_priority_order :
    (∀ queue : List QueueItem,
      (sortQueue queue).Pairwise fun a b =>
        (b.priority = "high" → a.priority = "high") ∧
        ((a.priority = "high" ↔ b.priority = "high") → b.addedAt ≤ a.addedAt)) ∧
    (nextBatch demoQueue 50).map (fun x => x.steamId) = ["h1", "n1", "n2"] := by
  constructor
  · intro queue
    have hs : (sortQueue queue).Pairwise fun a b => queueCmpLe a b = true := by
      simpa [sortQueue] using
        List.sorted_mergeSort queueCmpLe_trans queueCmpLe_total queue
    exact hs.imp fun h => queueCmpLe_interp _ _ h
  · simp [nextBatch, sortQueue, demoQueue, addToQueue, queueCmpLe, List.mergeSort]

/-- C7 witness: the ordering interpretation holds of the sorted demo queue. -/
theorem c7_queue_priority_order_witness :
    (sortQueue demoQueue).Pairwise fun a b =>
      (b.priority = "high" → a.priority = "high") ∧
      ((a.priority = "high" ↔ b.priority = "high") → b.addedAt ≤ a.addedAt) :=
  c7_queue_priority_order.1 demoQueue

/-- The rule-stage result of the C8 scenario: confidence 0.9. -/
def demoRulePred : PolishPrediction :=
  { is_polish := true, confidence := 0.9, needs_review := false,
    prediction_reason := "Rule-based: 2 patterns matched" }

/-- The learned-stage result of the C8 scenario: confidence 0.1. -/
def demoMLPred : PolishPrediction :=
  { is_polish := false, confidence := 0.1, needs_review := true,
    prediction_reason := "ML prediction (10% confidence)" }

/-- C8: the regional-affinity combiner always blends the two confidences as
`0.6*rule + 0.4*learned` with label `combined > 0.5`; for rule confidence 0.9
and learned confidence 0.1 the combined confidence is exactly 0.58 (exact
rational arithmetic), the label is true, and `needs_review` is true because
0.58 lies strictly between 0.3 and the 0.7 confident threshold. -/
theorem c8_polish_combiner_blend :
    (∀ ruleBased ml : PolishPrediction,
        (combinePolishPredictions ruleBased ml).confidence =
          0.6 * ruleBased.confidence + 0.4 * ml.confidence ∧
        (combinePolishPredictions ruleBased ml).is_polish =
          decide ((combinePolishPredictions ruleBased ml).confidence > 0.5)) ∧
    (combinePolishPredictions demoRulePred demoMLPred).confidence = 0.58 ∧
    (combinePolishPredictions demoRulePred demoMLPred).is_polish = true ∧
    (combinePolishPredictions demoRulePred demoMLPred).needs_review = true ∧
    ((0.3 : ℚ) < 0.58 ∧ (0.58 : ℚ) < 0.7) := by
  refine ⟨fun ruleBased ml => ⟨by simp only [combinePolishPredictions]; ring, rfl⟩,
    ?_, ?_, ?_, by norm_num⟩
  · norm_num [combinePolishPredictions, demoRulePred, demoMLPred]
  · simp only [combinePolishPredictions, demoRulePred, demoMLPred, decide_eq_true_eq]
    norm_num
  · simp only [combinePolishPredictions, demoRulePred, demoMLPred, polishConfidenceThreshold,
      decide_eq_true_eq]
    norm_num

/-- C9 counterexample: the blob built from the name `"xdarkrpy"` contains
`"darkrp"` (at position 1), yet no word boundary surrounds it, so none of the
detectors — including `/\b(darkrp|dark\s*rp|roleplay|rp)\b/` — matches, and
the rule stage returns `"unknown"`. -/
theorem c9_embedded_darkrp_is_unknown :
    ((mkBlob (litBytes "xdarkrpy") [] []).drop 1).take 6 = litBytes "darkrp" ∧
    (predictGamemodeRuleBased (litBytes "xdarkrpy") [] []).gamemode = "unknown" := by
  refine ⟨by decide, by decide⟩

/-- A literal token list matches any text that starts with the literal. -/
theorem matchToks_lits (w : List Nat) :
    ∀ xs : List Nat, xs.take w.length = w →
      matchToks (w.map RTok.lit) xs = some w.length := by
  induction w with
  | nil => intro xs _; rfl
  | cons c w' ih =>
    intro xs h
    cases xs with
    | nil => simp at h
    | cons x xs' =>
      rw [List.length_cons, List.take_succ_cons] at h
      obtain ⟨hx, ht⟩ := List.cons.inj h
      simp only [List.map_cons, matchToks]
      rw [if_pos (by simp [hx]), ih xs' ht]
      simp

/-- `findSome?` succeeds whenever some member of the list succeeds. -/
theorem findSome?_isSome_of_mem {α β : Type} (l : List α) (f : α → Option β) (a : α)
    (ha : a ∈ l) (hfa : (f a).isSome) : (l.findSome? f).isSome := by
  induction l with
  | nil => cases ha
  | cons x xs ih =>
    rw [List.findSome?_cons]
    cases hfx : f x with
    | some b => simp
    | none =>
      rcases List.mem_cons.1 ha with rfl | hmem
      · rw [hfx] at hfa
        cases hfa
      · exact ih hmem

/-- A matching detector scores strictly positively
(`len/textLen + 0.5 > 0`). -/
theorem ruleScore_pos (n len : Nat) : (0 : ℚ) < ruleScore n len := by
  unfold ruleScore
  have h : (0 : ℚ) ≤ (n : ℚ) / (len : ℚ) := div_nonneg (by positivity) (by positivity)
  have h5 : (0 : ℚ) < 0.5 := by norm_num
  linarith

/-- `ruleScan` started with a recorded best match always ends with a
recorded best match, drawn from the starting one or the scanned patterns. -/
theorem ruleScan_best_mem (text : List Nat) :
    ∀ (pats : List (String × List (List RTok))) (gm₀ : String) (hi : ℚ),
      ∃ g, (ruleScan text pats (some gm₀) hi).1 = some g ∧
        (g = gm₀ ∨ g ∈ pats.map Prod.fst) := by
  intro pats
  induction pats with
  | nil => intro gm₀ hi; exact ⟨gm₀, rfl, Or.inl rfl⟩
  | cons p rest ih =>
    intro gm₀ hi
    obtain ⟨gm, alts⟩ := p
    simp only [ruleScan, List.map_cons]
    cases hfind : findPatternMatch alts text with
    | none =>
      obtain ⟨g, hg, hmem⟩ := ih gm₀ hi
      exact ⟨g, hg, hmem.imp id (List.mem_cons_of_mem _)⟩
    | some v =>
      obtain ⟨i, n⟩ := v
      by_cases hlt : hi < ruleScore n text.length
      · simp only [hlt, if_true]
        obtain ⟨g, hg, hmem⟩ := ih gm _
        refine ⟨g, hg, Or.inr ?_⟩
        rcases hmem with rfl | hm
        · exact List.mem_cons_self _ _
        · exact List.mem_cons_of_mem _ hm
      · simp only [hlt, if_false]
        obtain ⟨g, hg, hmem⟩ := ih gm₀ hi
        exact ⟨g, hg, hmem.imp id (List.mem_cons_of_mem _)⟩

/-- If the first detector of the scan matches, the scan records some
detector name. -/
theorem ruleScan_cons_records (text : List Nat) (gm : String) (alts : List (List RTok))
    (rest : List (String × List (List RTok))) (v : Nat × Nat)
    (hv : findPatternMatch alts text = some v) :
    ∃ g, (ruleScan text ((gm, alts) :: rest) none 0).1 = some g ∧
      (g = gm ∨ g ∈ rest.map Prod.fst) := by
  obtain ⟨j, n⟩ := v
  simp only [ruleScan, hv]
  rw [if_pos (ruleScore_pos n text.length)]
  exact ruleScan_best_mem text rest gm (ruleScore n text.length)

/-- If the darkrp detector matches the blob, the whole rule scan records some
detector name. -/
theorem ruleScan_records_on_darkrp_match (text : List Nat)
    (h : (findPatternMatch darkrpAlts text).isSome) :
    ∃ g, (ruleScan text gamemodePatterns none 0).1 = some g ∧
      g ∈ gamemodePatterns.map Prod.fst := by
  obtain ⟨v, hv⟩ := Option.isSome_iff_exists.1 h
  have hgp : gamemodePatterns = ("darkrp", darkrpAlts) :: gamemodePatterns.tail := rfl
  rw [hgp]
  obtain ⟨g, hg, hmem⟩ :=
    ruleScan_cons_records text "darkrp" darkrpAlts gamemodePatterns.tail v hv
  refine ⟨g, hg, ?_⟩
  rw [List.map_cons]
  rcases hmem with rfl | hm
  · exact List.mem_cons_self _ _
  · exact List.mem_cons_of_mem _ hm

/-- C9 (amended): (1) whenever the blob contains `"darkrp"` delimited by word
boundaries on both sides, the rule-based classifier never returns
`"unknown"` (with no boundary around the occurrence the pattern can fail —
see the counterexample); (2) for a fixed blob length, the confidence
`min(matchLen/textLen + 0.5, 0.95)` is monotonically non-decreasing in the
matched-span length. -/
theorem c9_darkrp_never_unknown_and_monotone :
    (∀ (name tags mapName : List Nat) (i : Nat),
        ((mkBlob name tags mapName).drop i).take 6 = litBytes "darkrp" →
        boundaryAt (mkBlob name tags mapName) i = true →
        boundaryAt (mkBlob name tags mapName) (i + 6) = true →
        (predictGamemodeRuleBased name tags mapName).gamemode ≠ "unknown") ∧
    (∀ (textLen m1 m2 : Nat), m1 ≤ m2 →
        min (ruleScore m1 textLen) 0.95 ≤ min (ruleScore m2 textLen) 0.95) := by
  constructor
  · intro name tags mapName i htake hb1 hb2
    set text := mkBlob name tags mapName with htext
    have hmt : matchToks (litToks "darkrp") (text.drop i) = some 6 := by
      have hlit : litToks "darkrp" = (litBytes "darkrp").map RTok.lit := by
        simp [litToks, litBytes, List.map_map]
      rw [hlit, matchToks_lits (litBytes "darkrp") (text.drop i) htake]
      rfl
    have halt : matchAltAt text i (litToks "darkrp") = some 6 := by
      unfold matchAltAt
      rw [if_pos hb1, hmt]
      simp [hb2]
    have hinner : ((darkrpAlts.findSome? fun alt => matchAltAt text i alt)).isSome := by
      apply findSome?_isSome_of_mem _ _ (litToks "darkrp")
      · simp [darkrpAlts]
      · rw [halt]; rfl
    have hi_lt : i < text.length + 1 := by
      have hl := congrArg List.length htake
      simp only [List.length_take, List.length_drop] at hl
      have : (litBytes "darkrp").length = 6 := by decide
      omega
    have hfp : (findPatternMatch darkrpAlts text).isSome := by
      unfold findPatternMatch
      apply findSome?_isSome_of_mem _ _ i
      · exact List.mem_range.2 hi_lt
      · cases hmi : (darkrpAlts.findSome? fun alt => matchAltAt text i alt) with
        | none => rw [hmi] at hinner; cases hinner
        | some m => simp
    obtain ⟨g, hg, hmem⟩ := ruleScan_records_on_darkrp_match text hfp
    have hnotin : ("unknown" : String) ∉ gamemodePatterns.map Prod.fst := by decide
    intro hcontra
    simp only [predictGamemodeRuleBased, ← htext, hg, Option.getD_some] at hcontra
    exact hnotin (hcontra ▸ hmem)
  · intro textLen m1 m2 h
    unfold ruleScore
    by_cases hl : (textLen : ℚ) = 0
    · rw [hl]
      simp [div_zero]
    · have hpos : (0 : ℚ) < (textLen : ℚ) := lt_of_le_of_ne (by positivity) (Ne.symm hl)
      have hdiv : (m1 : ℚ) / (textLen : ℚ) ≤ (m2 : ℚ) / (textLen : ℚ) :=
        (div_le_div_iff_of_pos_right hpos).2 (by exact_mod_cast h)
      exact min_le_min (by linarith) (le_refl _)

/-- C9 witness: the word-boundary condition at the blob of
`"my darkrp server"` (occurrence at position 3), so the rule stage does not
return `"unknown"` there. -/
theorem c9_darkrp_never_unknown_witness :
    (predictGamemodeRuleBased (litBytes "my darkrp server") [] []).gamemode ≠ "unknown" :=
  c9_darkrp_never_unknown_and_monotone.1 (litBytes "my darkrp server") [] [] 3
    (by decide) (by decide) (by decide)

/-- C10: for every buffer the info decoder accepts, the `name` field of the
result is the entire `{value, length}` record produced by the null-terminated
string scan (not the decoded string), so the value `saveServerData` persists
for the server name is the default object stringification
`"[object Object]"`; the dashboard queries explicitly normalize exactly that
stored text to `"Unknown Server"`.  The concrete decode of `demoInfoBuf`
shows the contrast: `name` is the record `{value := "ab", length := 2}` while
`map`, `folder`, `game` and `version` are the plain scanned strings. -/
theorem c10_name_is_record_persisted_as_object_object :
    (∀ (buffer : List Nat) (info : A2SInfo), parseA2SInfo buffer = Except.ok info →
        info.name = readString buffer 5 ∧
        jsValToDbText (savedServerName (some info)) = "[object Object]") ∧
    normalizeDashboardName (some "[object Object]") = "Unknown Server" ∧
    parseA2SInfo demoInfoBuf = Except.ok demoInfo := by
  refine ⟨?_, rfl, by rfl⟩
  intro buffer info h
  simp only [parseA2SInfo, Except.ok.injEq] at h
  subst h
  exact ⟨rfl, rfl⟩

/-- C10 witness: the general part applied to the concrete decode of
`demoInfoBuf`. -/
theorem c10_name_is_record_witness :
    demoInfo.name = readString demoInfoBuf 5 ∧
    jsValToDbText (savedServerName (some demoInfo)) = "[object Object]" :=
  c10_name_is_record_persisted_as_object_object.1 demoInfoBuf demoInfo (by rfl)
